import Mathlib

/-!
Verification of the capture-and-recognition pipeline of the lotto-scanner
repository (src/app.js).  The JavaScript source is shallowly embedded:
strings become `List Char`, the regex used by the draw-line parser becomes
an executable backtracking matcher, the orchestrator state (the module-level
mutable variables `stream`, `isScanning`, the scan button and status text)
becomes an explicit `AppState` record threaded through transition functions,
and host/engine effects (canvas capture, Tesseract worker creation,
parameter setting, recognition) become explicit boolean/`Option` inputs.
-/

namespace LottoScanner

/-! ### Character classes of JavaScript regular expressions

`jsDigit` is the `\d` class (exactly the ASCII digits).  `jsSpace` is the
`\s` class, which coincides with the character set removed by
`String.prototype.trim` (ECMAScript WhiteSpace plus LineTerminator). -/

def jsDigit (c : Char) : Bool := '0' ≤ c && c ≤ '9'

def jsSpaceChars : List Char :=
  [' ', '\t', '\n', '\x0b', '\x0c', '\r', '\u00A0', '\u1680',
   '\u2000', '\u2001', '\u2002', '\u2003', '\u2004', '\u2005', '\u2006',
   '\u2007', '\u2008', '\u2009', '\u200A', '\u2028', '\u2029', '\u202F',
   '\u205F', '\u3000', '\uFEFF']

def jsSpace (c : Char) : Bool := jsSpaceChars.contains c

/-- Embedding of `line.trim()`: remove leading and trailing whitespace. -/
def trimJS (s : List Char) : List Char :=
  ((s.dropWhile jsSpace).reverse.dropWhile jsSpace).reverse

/-- Splitting on a single separator character, as `String.prototype.split`
does with a one-character separator (`text.split(sep)`).  The accumulator
holds the current field in reverse. -/
def splitChAux (sep : Char) : List Char → List Char → List (List Char)
  | [], acc => [acc.reverse]
  | c :: r, acc =>
    if c = sep then acc.reverse :: splitChAux sep r []
    else splitChAux sep r (c :: acc)

def splitCh (sep : Char) (t : List Char) : List (List Char) :=
  splitChAux sep t []

/-- Embedding of `text.split('\n')` from src/app.js line 176. -/
def linesOf (t : List Char) : List (List Char) := splitCh '\n' t

/-! ### The numeric-run regex

src/app.js line 184 tests `line.match(/(?:\d{1,2}\s+){4,}/)`.  The code only
uses the truthiness of the result, so the embedding is a decision procedure
for "some position of the line starts a match".  `matchUnits k s` decides
whether `k` consecutive repetitions of `\d{1,2}\s+` can match a prefix of
`s` under the usual backtracking semantics: the two-digit alternative and
the one-digit alternative of `\d{1,2}` are both tried, and `\s+` may be
taken maximally because a following repetition must begin with a digit
(digits are not whitespace), so consuming all available whitespace loses no
matches. -/
def matchUnits : Nat → List Char → Bool
  | 0, _ => true
  | _ + 1, [] => false
  | _ + 1, [_] => false
  | k + 1, [c1, c2] => jsDigit c1 && jsSpace c2 && matchUnits k []
  | k + 1, c1 :: c2 :: c3 :: r =>
    jsDigit c1 &&
      ((jsDigit c2 && jsSpace c3 && matchUnits k (r.dropWhile jsSpace))
        ||
       (jsSpace c2 && matchUnits k ((c3 :: r).dropWhile jsSpace)))

/-- Embedding of `line.match(/(?:\d{1,2}\s+){4,}/) !== null`: the pattern
matches starting at some position, i.e. at the head of some suffix.  Four
repetitions establish a match of the `{4,}` quantifier. -/
def regexMatches (line : List Char) : Bool :=
  line.tails.any (fun t => matchUnits 4 t)

/-! ### Line classification (src/app.js lines 179-188)

The forEach body pushes at most one tagged string per line: lines holding
both brackets get the star marker, lines matching the numeric-run regex get
the ticket marker, all other lines contribute nothing.  The marker strings
in the repository file are the UTF-8 emoji (the checked-in copy shows them
byte-mangled); only their values and distinctness matter here. -/

def starTag : List Char := ['⭐', ' ']

def ticketTag : List Char := ['🎟', '\uFE0F', ' ']

/-- Contribution of one line of OCR text to `parsedDraws`: the body of the
`lines.forEach` loop at src/app.js lines 179-188. -/
def lineDraws (line : List Char) : List (List Char) :=
  if line.contains '[' && line.contains ']' then
    [starTag ++ trimJS line]
  else if regexMatches line then
    [ticketTag ++ trimJS line]
  else
    []

/-- Embedding of the `parsedDraws` accumulation: split the OCR text into
lines and push each line's classification in input order (src/app.js lines
176-188). -/
def parsedDraws (text : List Char) : List (List Char) :=
  (linesOf text).foldl (fun acc line => acc ++ lineDraws line) []

/-! ### Result rendering (src/app.js lines 190-199) -/

/-- The three mutually exclusive render outcomes of a successful OCR run. -/
inductive ScanOutcome where
  | drawsSummary (draws : List (List Char)) (raw : List Char)
  | noTextFound
  | rawFallback (raw : List Char)
  deriving DecidableEq

/-- Embedding of the if/else chain at src/app.js lines 190-199: the draws
summary when `parsedDraws.length > 0`, else the no-text message when
`text.trim() === ""`, else the raw-text fallback. -/
def renderResult (text : List Char) : ScanOutcome :=
  let draws := parsedDraws text
  if draws.length > 0 then .drawsSummary draws text
  else if trimJS text = [] then .noTextFound
  else .rawFallback text

/-! ### The OCR engine adapter (src/app.js lines 143-208)

`processImageData` creates a Tesseract worker, sets the character whitelist
and page-segmentation mode, recognises, terminates the worker, and renders.
The whole body sits in one try/catch whose handler only sets the failure
status.  The fallible host/engine steps are modelled as explicit inputs:
whether `Tesseract.createWorker` resolves, whether `worker.setParameters`
resolves, and the outcome of `worker.recognize` (`some` carrying the
recognised text, `none` standing for a thrown recognition error).
`worker.terminate` is modelled as always resolving.  The run is recorded as
the ordered list of completed effects. -/

def tessWhitelist : List Char :=
  "0123456789 ABCDEFGHIJKLMNOPQRSTUVWXYZ[]-".toList

def tessPsm : List Char := "6".toList

/-- Outcomes of the fallible external steps inside one `processImageData`
call. -/
structure EngineBehavior where
  createOk : Bool
  setParamsOk : Bool
  recResult : Option (List Char)
  deriving DecidableEq

/-- Observable effects of one `processImageData` call, in completion
order. -/
inductive OcrEvent where
  | workerCreated
  | paramsSet (whitelist : List Char) (psm : List Char)
  | recognized
  | terminated
  | rendered (o : ScanOutcome)
  | statusFailed
  | statusComplete
  deriving DecidableEq

/-- Embedding of the control flow of `processImageData` (src/app.js lines
143-208) as the trace of completed effects.  A step that throws transfers
control to the catch block, which sets the failure status; in particular
`worker.terminate()` (line 166) runs only when creation, configuration and
recognition all succeeded. -/
def ocrTrace (eng : EngineBehavior) : List OcrEvent :=
  if !eng.createOk then [.statusFailed]
  else if !eng.setParamsOk then [.workerCreated, .statusFailed]
  else
    match eng.recResult with
    | none => [.workerCreated, .paramsSet tessWhitelist tessPsm, .statusFailed]
    | some text =>
      [.workerCreated, .paramsSet tessWhitelist tessPsm, .recognized,
       .terminated, .rendered (renderResult text), .statusComplete]

/-- Whether the `processImageData` call reached its success status line. -/
def ocrSucceeds (eng : EngineBehavior) : Bool :=
  eng.createOk && eng.setParamsOk && eng.recResult.isSome

/-- Final `statusText` written by `processImageData`. -/
def ocrStatus (eng : EngineBehavior) : String :=
  if ocrSucceeds eng then "Scan Complete" else "Failed to process image."

/-! ### Canvas filters (src/app.js lines 85 and 129)

Both capture paths assign a CSS filter string to the 2d context before
drawing.  The strings are embedded verbatim, together with a small reader
of the space-separated `name(N%)` filter-function list so that theorems can
speak about the individual filter operations and their multipliers. -/

def liveCtxFilter : List Char := "grayscale(100%) contrast(120%)".toList

def nativeCtxFilter : List Char := "grayscale(100%) contrast(120%)".toList

def natOfDigits (ds : List Char) : Nat :=
  ds.foldl (fun n c => 10 * n + (c.toNat - '0'.toNat)) 0

/-- Read one CSS filter function token of the shape `name(N%)`. -/
def parseFilterFn (tok : List Char) : Option (List Char × Nat) :=
  let name := tok.takeWhile (fun c => c ≠ '(')
  match tok.dropWhile (fun c => c ≠ '(') with
  | '(' :: r =>
    let ds := r.takeWhile jsDigit
    if ds = [] then none
    else
      match r.dropWhile jsDigit with
      | ['%', ')'] => some (name, natOfDigits ds)
      | _ => none
  | _ => none

/-- Read a whole `ctx.filter` value as an ordered list of
(filter function name, percentage) pairs. -/
def parseFilterOps (s : List Char) : List (List Char × Nat) :=
  ((splitCh ' ' s).filter (fun t => t ≠ [])).filterMap parseFilterFn

/-! ### Region of interest (src/app.js lines 72-79)

The live path crops a centered band of the video frame.  JavaScript number
arithmetic on these values is modelled exactly over the rationals. -/

def cropWidth (cw : ℚ) : ℚ := cw * 0.8

def cropHeight (ch : ℚ) : ℚ := ch * 0.3

def roiStartX (cw : ℚ) : ℚ := (cw - cropWidth cw) / 2

def roiStartY (ch : ℚ) : ℚ := (ch - cropHeight ch) / 2

/-- The crop rectangle passed to `drawImage` on the live path. -/
structure Roi where
  x : ℚ
  y : ℚ
  w : ℚ
  h : ℚ
  deriving DecidableEq

def liveRoi (cw ch : ℚ) : Roi :=
  { x := roiStartX cw, y := roiStartY ch, w := cropWidth cw, h := cropHeight ch }

/-! ### The pipeline orchestrator

The module-level mutable state of src/app.js (`stream`, `isScanning`, the
scan button, the status text) becomes an explicit record.  Two ghost
counters instrument the embedding: `activeRuns` counts capture sessions
that have started and not yet been reset (a session is the interval between
an entry point setting `isScanning = true` and the matching
`resetScanState()`), and `resets`/`ocrInvocations` count calls of
`resetScanState` and `processImageData`. -/

structure AppState where
  hasStream : Bool
  isScanning : Bool
  scanBtnDisabled : Bool
  status : String
  lastRoi : Option Roi
  lastFilter : Option (List Char)
  activeRuns : Nat
  resets : Nat
  ocrInvocations : Nat
  deriving DecidableEq

/-- A ready initial state: camera running, nothing in flight. -/
def initState : AppState :=
  { hasStream := true, isScanning := false, scanBtnDisabled := false,
    status := "Ready", lastRoi := none, lastFilter := none,
    activeRuns := 0, resets := 0, ocrInvocations := 0 }

/-- Embedding of `resetScanState` (src/app.js lines 210-224): clear the
in-progress flag and re-enable the scan button.  The 3000 ms status
restoration is modelled separately by `statusTimerFire`. -/
def resetScanState (s : AppState) : AppState :=
  { s with isScanning := false, scanBtnDisabled := false,
           activeRuns := s.activeRuns - 1, resets := s.resets + 1 }

/-- The fixed display delay of the status reset (src/app.js line 223). -/
def resetDelayMs : Nat := 3000

/-- Embedding of the `setTimeout` callback inside `resetScanState`
(src/app.js lines 218-223): after the delay, restore the ready status
unless a new scan is in flight. -/
def statusTimerFire (s : AppState) : AppState :=
  if s.isScanning then s else { s with status := "Ready for next scan" }

/-- Effect of one `processImageData` call on the orchestrator state:
increments the ghost invocation counter and leaves the final status text.
`processImageData` traps every error internally (its try/catch does not
rethrow), so the call itself never throws into the caller. -/
def procImage (s : AppState) (eng : EngineBehavior) : AppState :=
  { s with ocrInvocations := s.ocrInvocations + 1, status := ocrStatus eng }

/-- Synchronous prefix of `captureAndScan` past its guard (src/app.js lines
64-69): set the in-progress flag, disable the button, show the processing
status. -/
def liveStartBody (s : AppState) : AppState :=
  { s with isScanning := true, scanBtnDisabled := true,
           status := "Processing image...", activeRuns := s.activeRuns + 1 }

/-- Embedding of the entry guard of `captureAndScan` (src/app.js line 62):
`if (isScanning || !stream) return;`.  This models the state reached right
after the guarded start, before the asynchronous body completes. -/
def liveStart (s : AppState) : AppState :=
  if s.isScanning || !s.hasStream then s else liveStartBody s

/-- Embedding of one complete `captureAndScan` run (src/app.js lines
61-96).  `cw`/`ch` are `video.videoWidth`/`video.videoHeight`; `capOk`
models whether the synchronous canvas section (drawImage/toDataURL against
the live video element) throws a host exception, which the catch block
swallows; the finally block applies `resetScanState` on every path that
passes the guard. -/
def liveRun (s : AppState) (cw ch : ℚ) (capOk : Bool) (eng : EngineBehavior) :
    AppState :=
  if s.isScanning || !s.hasStream then s
  else
    let s1 := liveStartBody s
    let s2 :=
      if capOk then
        procImage { s1 with lastRoi := some (liveRoi cw ch),
                            lastFilter := some liveCtxFilter } eng
      else s1
    resetScanState s2

/-- Synchronous prefix of the native camera change handler past its file
guard (src/app.js lines 116-118): set the in-progress flag and the loading
status.  Note the handler does not consult `isScanning` or the stream. -/
def nativeStartBody (s : AppState) : AppState :=
  { s with isScanning := true, status := "Loading native photo...",
           activeRuns := s.activeRuns + 1 }

/-- Embedding of the entry of the `nativeCameraInput` change handler
(src/app.js lines 112-118): `if (!file) return;` is the only guard. -/
def nativeStart (s : AppState) (hasFile : Bool) : AppState :=
  if !hasFile then s else nativeStartBody s

/-- Embedding of one complete native-photo flow (src/app.js lines 112-140).
`readOk` models the FileReader delivering its load event (no
`reader.onerror` handler is installed), `decodeOk` models the Image element
delivering its load event (no `img.onerror` handler is installed).  When
either fails the registered onload callback never runs, so nothing further
happens; `resetScanState` is reached only after `processImageData`
completes inside `img.onload`. -/
def nativeRun (s : AppState) (hasFile readOk decodeOk : Bool)
    (eng : EngineBehavior) : AppState :=
  if !hasFile then s
  else
    let s1 := nativeStartBody s
    if !readOk then s1
    else if !decodeOk then s1
    else
      let s2 := { s1 with status := "Analyzing HD Photo...",
                          lastFilter := some nativeCtxFilter }
      resetScanState (procImage s2 eng)

/-! ### Basic character and list lemmas -/

theorem contains_iff_mem (l : List Char) (a : Char) :
    l.contains a = true ↔ a ∈ l := by
  simp [List.contains, List.elem_iff]

theorem space_not_digit {c : Char} (h : jsSpace c = true) : jsDigit c = false := by
  have hm : c ∈ jsSpaceChars := (contains_iff_mem jsSpaceChars c).mp h
  fin_cases hm <;> decide

theorem digit_not_space {c : Char} (h : jsDigit c = true) : jsSpace c = false := by
  cases hs : jsSpace c with
  | false => rfl
  | true => rw [space_not_digit hs] at h; exact Bool.noConfusion h

theorem all_space_append_dropWhile {l t : List Char}
    (h : ∀ c ∈ l, jsSpace c = true) :
    (l ++ t).dropWhile jsSpace = t.dropWhile jsSpace := by
  induction l with
  | nil => rfl
  | cons c r ih =>
    simp only [List.cons_append, List.dropWhile_cons, h c (by simp), if_true]
    exact ih (fun x hx => h x (by simp [hx]))

/-! ### Declarative reading of the numeric-run regex

`UnitsMatch k s` holds when `s` begins with `k` consecutive blocks, each a
one- or two-digit number followed by at least one whitespace character:
this is what a prefix match of `(?:\d{1,2}\s+){k}` means.  The theorems
below prove the executable matcher equivalent to it. -/

inductive UnitsMatch : Nat → List Char → Prop where
  | nil (s : List Char) : UnitsMatch 0 s
  | cons {k : Nat} (ds ws rest : List Char)
      (hd : ∀ c ∈ ds, jsDigit c = true)
      (h1 : 1 ≤ ds.length) (h2 : ds.length ≤ 2)
      (hw : ∀ c ∈ ws, jsSpace c = true)
      (hw1 : 1 ≤ ws.length)
      (hrest : UnitsMatch k rest) :
      UnitsMatch (k + 1) (ds ++ ws ++ rest)

theorem matchUnits_head_digit {k : Nat} {s : List Char}
    (h : matchUnits (k + 1) s = true) :
    ∃ c r, s = c :: r ∧ jsDigit c = true := by
  match s with
  | [] => simp [matchUnits] at h
  | [c] => simp [matchUnits] at h
  | [c1, c2] =>
    simp only [matchUnits, Bool.and_eq_true] at h
    exact ⟨c1, [c2], rfl, h.1.1⟩
  | c1 :: c2 :: c3 :: r =>
    simp only [matchUnits, Bool.and_eq_true] at h
    exact ⟨c1, c2 :: c3 :: r, rfl, h.1⟩

theorem matchUnits_dropWhile {k : Nat} {s : List Char}
    (h : matchUnits k s = true) :
    matchUnits k (s.dropWhile jsSpace) = true := by
  cases k with
  | zero => simp [matchUnits]
  | succ k =>
    obtain ⟨c, r, rfl, hc⟩ := matchUnits_head_digit h
    simpa [List.dropWhile_cons, digit_not_space hc] using h

theorem matchUnits_cons_unit {k : Nat} {ds ws rest : List Char}
    (hd : ∀ c ∈ ds, jsDigit c = true)
    (h1 : 1 ≤ ds.length) (h2 : ds.length ≤ 2)
    (hw : ∀ c ∈ ws, jsSpace c = true) (hw1 : 1 ≤ ws.length)
    (hm : matchUnits k rest = true) :
    matchUnits (k + 1) (ds ++ ws ++ rest) = true := by
  match ds, h1, h2 with
  | [d], _, _ =>
    match ws, hw1 with
    | w :: ws', _ =>
      have hwsp : jsSpace w = true := hw w (by simp)
      have hws' : ∀ c ∈ ws', jsSpace c = true := fun c hc => hw c (by simp [hc])
      cases hwr : ws' ++ rest with
      | nil =>
        obtain ⟨hws0, hrest0⟩ := List.append_eq_nil.mp hwr
        subst hws0; subst hrest0
        simp [matchUnits, hd d (by simp), hwsp, hm]
      | cons c3 r =>
        have hdrop : (c3 :: r).dropWhile jsSpace = rest.dropWhile jsSpace := by
          rw [← hwr]; exact all_space_append_dropWhile hws'
        have : matchUnits k ((c3 :: r).dropWhile jsSpace) = true := by
          rw [hdrop]; exact matchUnits_dropWhile hm
        have hlist : [d] ++ (w :: ws') ++ rest = d :: w :: c3 :: r := by
          simp [hwr]
        rw [hlist]
        simp [matchUnits, hd d (by simp), hwsp, this]
  | [d1, d2], _, _ =>
    match ws, hw1 with
    | w :: ws', _ =>
      have hws' : ∀ c ∈ ws', jsSpace c = true := fun c hc => hw c (by simp [hc])
      have hdrop : (ws' ++ rest).dropWhile jsSpace = rest.dropWhile jsSpace :=
        all_space_append_dropWhile hws'
      have hlist : [d1, d2] ++ (w :: ws') ++ rest = d1 :: d2 :: w :: (ws' ++ rest) := by
        simp
      rw [hlist]
      simp [matchUnits, hd d1 (by simp), hd d2 (by simp), hw w (by simp), hdrop,
        matchUnits_dropWhile hm]

theorem matchUnits_of_unitsMatch {k : Nat} {s : List Char}
    (h : UnitsMatch k s) : matchUnits k s = true := by
  induction h with
  | nil s => simp [matchUnits]
  | cons ds ws rest hd h1 h2 hw hw1 hrest ih =>
    exact matchUnits_cons_unit hd h1 h2 hw hw1 ih

theorem unitsMatch_of_matchUnits :
    ∀ (k : Nat) (s : List Char), matchUnits k s = true → UnitsMatch k s := by
  intro k
  induction k with
  | zero => exact fun s _ => .nil s
  | succ k ih =>
    intro s h
    match s with
    | [] => simp [matchUnits] at h
    | [c] => simp [matchUnits] at h
    | [c1, c2] =>
      simp only [matchUnits, Bool.and_eq_true] at h
      obtain ⟨⟨h1, h2⟩, h3⟩ := h
      have hrest : UnitsMatch k [] := ih [] h3
      have := UnitsMatch.cons [c1] [c2] []
        (by intro c hc; simp at hc; subst hc; exact h1) (by simp) (by simp)
        (by intro c hc; simp at hc; subst hc; exact h2) (by simp) hrest
      simpa using this
    | c1 :: c2 :: c3 :: r =>
      simp only [matchUnits, Bool.and_eq_true, Bool.or_eq_true] at h
      obtain ⟨h1, h2⟩ := h
      rcases h2 with ⟨⟨hd2, hs3⟩, hm⟩ | ⟨hs2, hm⟩
      · have hrest := ih _ hm
        have heq : c1 :: c2 :: c3 :: r
            = [c1, c2] ++ (c3 :: r.takeWhile jsSpace) ++ r.dropWhile jsSpace := by
          have hr : r.takeWhile jsSpace ++ r.dropWhile jsSpace = r :=
            List.takeWhile_append_dropWhile jsSpace r
          simp [hr]
        rw [heq]
        exact UnitsMatch.cons _ _ _
          (by intro c hc; simp at hc; rcases hc with rfl | rfl
              · exact h1
              · exact hd2)
          (by simp) (by simp)
          (by intro c hc; simp at hc; rcases hc with rfl | hc
              · exact hs3
              · exact List.mem_takeWhile_imp hc)
          (by simp) hrest
      · have hrest := ih _ hm
        have heq : c1 :: c2 :: c3 :: r
            = [c1] ++ (c2 :: (c3 :: r).takeWhile jsSpace)
              ++ (c3 :: r).dropWhile jsSpace := by
          have hr : (c3 :: r).takeWhile jsSpace ++ (c3 :: r).dropWhile jsSpace
              = c3 :: r := List.takeWhile_append_dropWhile jsSpace (c3 :: r)
          simp [hr]
        rw [heq]
        exact UnitsMatch.cons _ _ _
          (by intro c hc; simp at hc; subst hc; exact h1)
          (by simp) (by simp)
          (by intro c hc; simp at hc; rcases hc with rfl | hc
              · exact hs2
              · exact List.mem_takeWhile_imp hc)
          (by simp) hrest

theorem matchUnits_iff (k : Nat) (s : List Char) :
    matchUnits k s = true ↔ UnitsMatch k s :=
  ⟨unitsMatch_of_matchUnits k s, matchUnits_of_unitsMatch⟩

/-- The numeric-run regex matches a line exactly when some split of the
line exposes a suffix beginning with four digit/whitespace blocks. -/
theorem regexMatches_iff (line : List Char) :
    regexMatches line = true ↔
      ∃ pre rest, line = pre ++ rest ∧ UnitsMatch 4 rest := by
  unfold regexMatches
  rw [List.any_eq_true]
  constructor
  · rintro ⟨t, ht, hm⟩
    obtain ⟨pre, hpre⟩ := (List.mem_tails t line).mp ht
    exact ⟨pre, t, hpre.symm, (matchUnits_iff 4 t).mp hm⟩
  · rintro ⟨pre, rest, rfl, hu⟩
    exact ⟨rest, (List.mem_tails rest _).mpr ⟨pre, rfl⟩,
      (matchUnits_iff 4 rest).mpr hu⟩

/-! ### Lines of whitespace-only text produce no draws -/

theorem splitChAux_mem {sep : Char} :
    ∀ {t acc line : List Char}, line ∈ splitChAux sep t acc →
      ∀ {c : Char}, c ∈ line → c ∈ t ∨ c ∈ acc := by
  intro t
  induction t with
  | nil =>
    intro acc line hline c hc
    simp only [splitChAux, List.mem_singleton] at hline
    subst hline
    exact Or.inr (List.mem_reverse.mp hc)
  | cons a r ih =>
    intro acc line hline c hc
    simp only [splitChAux] at hline
    by_cases ha : a = sep
    · rw [if_pos ha] at hline
      rcases List.mem_cons.mp hline with rfl | hline
      · exact Or.inr (List.mem_reverse.mp hc)
      · rcases ih hline hc with h | h
        · exact Or.inl (List.mem_cons_of_mem a h)
        · exact absurd h (List.not_mem_nil c)
    · rw [if_neg ha] at hline
      rcases ih hline hc with h | h
      · exact Or.inl (List.mem_cons_of_mem a h)
      · rcases List.mem_cons.mp h with rfl | h
        · exact Or.inl (List.mem_cons_self c r)
        · exact Or.inr h

theorem mem_of_mem_linesOf {t line : List Char} (hline : line ∈ linesOf t)
    {c : Char} (hc : c ∈ line) : c ∈ t := by
  rcases splitChAux_mem hline hc with h | h
  · exact h
  · exact absurd h (List.not_mem_nil c)

theorem matchUnits_all_space {k : Nat} {t : List Char}
    (h : ∀ c ∈ t, jsSpace c = true) : matchUnits (k + 1) t = false := by
  cases hm : matchUnits (k + 1) t with
  | false => rfl
  | true =>
    obtain ⟨c, r, rfl, hc⟩ := matchUnits_head_digit hm
    rw [space_not_digit (h c (by simp))] at hc
    exact Bool.noConfusion hc

theorem regexMatches_all_space {line : List Char}
    (h : ∀ c ∈ line, jsSpace c = true) : regexMatches line = false := by
  cases hm : regexMatches line with
  | false => rfl
  | true =>
    obtain ⟨pre, rest, rfl, hu⟩ := (regexMatches_iff line).mp hm
    have hmu : matchUnits (3 + 1) rest = true := matchUnits_of_unitsMatch hu
    obtain ⟨c, r, hrest, hc⟩ := matchUnits_head_digit hmu
    have hcm : c ∈ pre ++ rest := by simp [hrest]
    rw [space_not_digit (h c hcm)] at hc
    exact Bool.noConfusion hc

theorem lineDraws_all_space {line : List Char}
    (h : ∀ c ∈ line, jsSpace c = true) : lineDraws line = [] := by
  have hbr : '[' ∉ line := fun hm => absurd (h '[' hm) (by decide)
  simp [lineDraws, hbr, regexMatches_all_space h]

theorem trimJS_eq_nil {t : List Char} (h : trimJS t = []) :
    ∀ c ∈ t, jsSpace c = true := by
  unfold trimJS at h
  rw [List.reverse_eq_nil_iff, List.dropWhile_eq_nil_iff] at h
  intro c hc
  have hsplit := List.takeWhile_append_dropWhile jsSpace t
  rw [← hsplit] at hc
  rcases List.mem_append.mp hc with h1 | h2
  · exact List.mem_takeWhile_imp h1
  · exact h _ (List.mem_reverse.mpr h2)

theorem foldl_push_flatMap (f : List Char → List (List Char)) :
    ∀ (ls : List (List Char)) (acc : List (List Char)),
      ls.foldl (fun a l => a ++ f l) acc = acc ++ ls.flatMap f := by
  intro ls
  induction ls with
  | nil => intro acc; simp
  | cons l r ih => intro acc; simp [ih, List.append_assoc]

/-- The push-based accumulation of src/app.js lines 177-188 equals mapping
the per-line classifier over the lines in input order. -/
theorem parsedDraws_flatMap (text : List Char) :
    parsedDraws text = (linesOf text).flatMap lineDraws := by
  unfold parsedDraws
  rw [foldl_push_flatMap]
  rfl

theorem flatMap_eq_nil_of (f : List Char → List (List Char)) :
    ∀ ls : List (List Char), (∀ l ∈ ls, f l = []) → ls.flatMap f = [] := by
  intro ls
  induction ls with
  | nil => intro; rfl
  | cons l r ih =>
    intro h
    simp [h l (by simp), ih (fun x hx => h x (by simp [hx]))]

theorem parsedDraws_all_space {text : List Char}
    (h : ∀ c ∈ text, jsSpace c = true) : parsedDraws text = [] := by
  rw [parsedDraws_flatMap]
  exact flatMap_eq_nil_of _ _
    (fun l hl => lineDraws_all_space (fun c hc => h c (mem_of_mem_linesOf hl hc)))

theorem not_both_brackets {line : List Char} (h : ¬('[' ∈ line ∧ ']' ∈ line)) :
    (line.contains '[' && line.contains ']') = false := by
  cases h1 : line.contains '[' with
  | false => simp
  | true =>
    cases h2 : line.contains ']' with
    | false => simp
    | true =>
      exact absurd ⟨(contains_iff_mem _ _).mp h1, (contains_iff_mem _ _).mp h2⟩ h

/-! ### Claim-side definitions

These definitions formalise the wording of the specification claims, to be
compared against the source-side definitions above. -/

/-- Maximal whitespace-separated tokens of a line, used to count how many
numbers a line holds in the sense of the spec sentence "at least 5 numbers
total in a run". -/
def wsTokensAux : List Char → List Char → List (List Char)
  | [], acc => if acc = [] then [] else [acc.reverse]
  | c :: r, acc =>
    if jsSpace c then
      if acc = [] then wsTokensAux r [] else acc.reverse :: wsTokensAux r []
    else wsTokensAux r (c :: acc)

def wsTokens (s : List Char) : List (List Char) := wsTokensAux s []

/-- The tokens of a line that are 1- or 2-digit numbers. -/
def shortNumTokens (s : List Char) : List (List Char) :=
  (wsTokens s).filter
    (fun t => t.all jsDigit && decide (1 ≤ t.length) && decide (t.length ≤ 2))

/-- The character set named by claim C9: the digits 0-9, space, the
uppercase letters A-Z, the brackets and the hyphen, in the order the source
whitelist lists them. -/
def claimCharset : List Char :=
  ((List.range 10).map (fun i => Char.ofNat ('0'.toNat + i))) ++ [' ']
    ++ ((List.range 26).map (fun i => Char.ofNat ('A'.toNat + i)))
    ++ ['[', ']', '-']

/-- The geometric property claim C8 states for the live-mode region of
interest: proportional size, equality with the centered-offset formulas,
equal left/right and top/bottom margins, and containment in the source
bounds. -/
def RoiSpec (cw ch : ℚ) : Prop :=
  cropWidth cw = 0.8 * cw ∧ cropHeight ch = 0.3 * ch ∧
  roiStartX cw = (cw - cropWidth cw) / 2 ∧
  roiStartY ch = (ch - cropHeight ch) / 2 ∧
  cw - (roiStartX cw + cropWidth cw) = roiStartX cw ∧
  ch - (roiStartY ch + cropHeight ch) = roiStartY ch ∧
  0 ≤ roiStartX cw ∧ 0 ≤ roiStartY ch ∧
  roiStartX cw + cropWidth cw ≤ cw ∧ roiStartY ch + cropHeight ch ≤ ch

/-- Engine behaviour in which every external step succeeds and recognition
returns empty text. -/
def engOk : EngineBehavior :=
  { createOk := true, setParamsOk := true, recResult := some [] }

/-- Engine behaviour in which `worker.recognize` throws. -/
def engRecThrows : EngineBehavior :=
  { createOk := true, setParamsOk := true, recResult := none }

/-! ## Claim C1 -/

/-- C1 counterexample: the claim glosses the numeric-run condition as "at
least 5 numbers total in a run", but the source regex
`(?:\d{1,2}\s+){4,}` is satisfied by four numbers when the fourth is
followed by whitespace.  The line made of the four numbers 1 2 3 4 and a
trailing space holds exactly four whitespace-separated tokens, all of them
1-digit numbers, yet the parser classifies it number-run instead of
producing no ParsedDraw. -/
theorem C1_counterexample :
    lineDraws ("1 2 3 4 ".toList) = [ticketTag ++ ("1 2 3 4".toList)] ∧
    wsTokens ("1 2 3 4 ".toList) = [['1'], ['2'], ['3'], ['4']] ∧
    (shortNumTokens ("1 2 3 4 ".toList)).length = 4 := by decide

/-- C1 (amended): every line of the OCR text is processed in input order;
a line holding both brackets is tagged with the distinct star marker; an
other line is tagged with the distinct ticket marker exactly when some
position of it starts four consecutive repetitions of a 1-2-digit number
followed by whitespace (which a line with only four numbers can satisfy);
any remaining line produces no ParsedDraw. -/
theorem C1_theorem :
    (∀ text : List Char, parsedDraws text = (linesOf text).flatMap lineDraws) ∧
    starTag ≠ ticketTag ∧
    ∀ line : List Char,
      (('[' ∈ line ∧ ']' ∈ line) →
        lineDraws line = [starTag ++ trimJS line]) ∧
      (¬('[' ∈ line ∧ ']' ∈ line) →
        (∃ pre rest, line = pre ++ rest ∧ UnitsMatch 4 rest) →
        lineDraws line = [ticketTag ++ trimJS line]) ∧
      (¬('[' ∈ line ∧ ']' ∈ line) →
        ¬(∃ pre rest, line = pre ++ rest ∧ UnitsMatch 4 rest) →
        lineDraws line = []) := by
  refine ⟨parsedDraws_flatMap, by decide, ?_⟩
  intro line
  refine ⟨?_, ?_, ?_⟩
  · rintro ⟨h1, h2⟩
    simp [lineDraws, h1, h2]
  · intro hbr hex
    have hreg : regexMatches line = true := (regexMatches_iff line).mpr hex
    unfold lineDraws
    rw [not_both_brackets hbr, hreg]
    simp
  · intro hbr hex
    have hreg : regexMatches line = false := by
      cases h : regexMatches line with
      | false => rfl
      | true => exact absurd ((regexMatches_iff line).mp h) hex
    unfold lineDraws
    rw [not_both_brackets hbr, hreg]
    simp

/-- C1 witness: the spec example line is classified bonus-group, and a
plain five-number line is classified number-run. -/
theorem C1_witness :
    lineDraws ("A 23 24 29 36 45 [06 09]".toList)
      = [starTag ++ trimJS ("A 23 24 29 36 45 [06 09]".toList)] ∧
    lineDraws ("12 34 56 78 90".toList)
      = [ticketTag ++ trimJS ("12 34 56 78 90".toList)] :=
  ⟨(C1_theorem.2.2 _).1 ⟨by decide, by decide⟩,
   (C1_theorem.2.2 _).2.1 (by decide)
     ⟨[], ("12 34 56 78 90".toList), rfl,
      (matchUnits_iff 4 _).mp (by decide)⟩⟩

/-! ## Claim C2 -/

/-- C2: on a successful OCR run the renderer picks exactly one of three
outcomes with the stated priority, and empty or whitespace-only text yields
no draws and the distinct no-text message rather than the raw-text
fallback. -/
theorem C2_theorem :
    ∀ text : List Char,
      (parsedDraws text ≠ [] →
        renderResult text = .drawsSummary (parsedDraws text) text) ∧
      (parsedDraws text = [] → trimJS text = [] →
        renderResult text = .noTextFound) ∧
      (parsedDraws text = [] → trimJS text ≠ [] →
        renderResult text = .rawFallback text) ∧
      (trimJS text = [] →
        parsedDraws text = [] ∧ renderResult text = .noTextFound) := by
  intro text
  refine ⟨?_, ?_, ?_, ?_⟩
  · intro h
    have hlen : (parsedDraws text).length > 0 :=
      List.length_pos.mpr h
    simp [renderResult, hlen]
  · intro h1 h2
    simp [renderResult, h1, h2]
  · intro h1 h2
    simp [renderResult, h1, h2]
  · intro h
    have h1 : parsedDraws text = [] := parsedDraws_all_space (trimJS_eq_nil h)
    exact ⟨h1, by simp [renderResult, h1, h]⟩

/-- C2 witness: whitespace-only OCR text produces no draws and renders the
no-text message. -/
theorem C2_witness :
    trimJS (" \t\n ".toList) = [] ∧
      (parsedDraws (" \t\n ".toList) = [] ∧
        renderResult (" \t\n ".toList) = .noTextFound) :=
  ⟨by decide, (C2_theorem (" \t\n ".toList)).2.2.2 (by decide)⟩

/-! ## Claim C3 -/

/-- C3 counterexample: from the ready state, a live capture starts a
session; while it is in flight, a native-photo change event carrying a file
is not a no-op — it starts a second session, so the active-session count
reaches 2. -/
theorem C3_counterexample :
    (liveStart initState).isScanning = true ∧
    (liveStart initState).activeRuns = 1 ∧
    nativeStart (liveStart initState) true ≠ liveStart initState ∧
    (nativeStart (liveStart initState) true).activeRuns = 2 := by decide

/-- C3 (amended): the live-capture entry point is a no-op while a session
is in flight or while no stream is available; the native-photo entry point
ignores only requests with no selected file and does not consult the
in-progress flag. -/
theorem C3_theorem :
    (∀ s : AppState, s.isScanning = true → liveStart s = s) ∧
    (∀ s : AppState, s.hasStream = false → liveStart s = s) ∧
    (∀ s : AppState, nativeStart s false = s) := by
  refine ⟨?_, ?_, fun s => rfl⟩
  · intro s h; simp [liveStart, h]
  · intro s h; simp [liveStart, h]

/-- C3 witness: a busy state absorbs a live capture request, and a native
change event with no file is a no-op. -/
theorem C3_witness :
    liveStart { initState with isScanning := true }
        = { initState with isScanning := true } ∧
      nativeStart initState false = initState :=
  ⟨C3_theorem.1 { initState with isScanning := true } rfl,
   C3_theorem.2.2 initState⟩

/-! ## Claim C4 -/

/-- C4 counterexample: both capture paths set the filter chain
grayscale(100%) followed by contrast(120%); neither a contrast of 180%,
nor a brightness step, nor a still-photo contrast of 150% occurs. -/
theorem C4_counterexample :
    parseFilterOps liveCtxFilter
        = [("grayscale".toList, 100), ("contrast".toList, 120)] ∧
    parseFilterOps nativeCtxFilter
        = [("grayscale".toList, 100), ("contrast".toList, 120)] ∧
    ¬(("contrast".toList, 180) ∈ parseFilterOps liveCtxFilter ∨
      ("brightness".toList, 120) ∈ parseFilterOps liveCtxFilter ∨
      ("contrast".toList, 150) ∈ parseFilterOps nativeCtxFilter) := by decide

/-- C4 (amended): the pre-processor applies, in order, full grayscale
desaturation then a contrast boost of 120%, identically on the live path
and the native still-photo path, with no brightness step; each completed
run records exactly that filter chain. -/
theorem C4_theorem :
    parseFilterOps liveCtxFilter
        = [("grayscale".toList, 100), ("contrast".toList, 120)] ∧
    parseFilterOps nativeCtxFilter
        = [("grayscale".toList, 100), ("contrast".toList, 120)] ∧
    (∀ (s : AppState) (cw ch : ℚ) (eng : EngineBehavior),
      s.isScanning = false → s.hasStream = true →
        (liveRun s cw ch true eng).lastFilter = some liveCtxFilter) ∧
    (∀ (s : AppState) (eng : EngineBehavior),
        (nativeRun s true true true eng).lastFilter = some nativeCtxFilter) := by
  refine ⟨by decide, by decide, ?_, ?_⟩
  · intro s cw ch eng h1 h2
    simp [liveRun, h1, h2, liveStartBody, procImage, resetScanState]
  · intro s eng
    simp [nativeRun, nativeStartBody, procImage, resetScanState]

/-- C4 witness: a complete live run and a complete native run from the
ready state record the grayscale+contrast(120%) chain. -/
theorem C4_witness :
    (liveRun initState 1920 1080 true engOk).lastFilter = some liveCtxFilter ∧
      (nativeRun initState true true true engOk).lastFilter
        = some nativeCtxFilter :=
  ⟨C4_theorem.2.2.1 initState 1920 1080 engOk rfl rfl,
   C4_theorem.2.2.2 initState engOk⟩

/-! ## Claim C5 -/

/-- C5 counterexample: when recognition throws, the worker was created but
`worker.terminate()` never runs — the engine instance is not released on
that exit path. -/
theorem C5_counterexample :
    OcrEvent.workerCreated ∈ ocrTrace engRecThrows ∧
    OcrEvent.terminated ∉ ocrTrace engRecThrows := by decide

/-- C5 (amended): each recognition call uses a fresh single-use engine
instance (at most one creation and one termination per call), but the
instance is terminated exactly when creation, configuration and
recognition all succeed; an exception from configuration or recognition
skips the release. -/
theorem C5_theorem :
    ∀ eng : EngineBehavior,
      (ocrTrace eng).count .workerCreated ≤ 1 ∧
      (ocrTrace eng).count .terminated ≤ 1 ∧
      (OcrEvent.terminated ∈ ocrTrace eng ↔
        eng.createOk = true ∧ eng.setParamsOk = true ∧
          eng.recResult.isSome = true) := by
  intro eng
  obtain ⟨cr, sp, rec⟩ := eng
  cases cr <;> cases sp <;> rcases rec with _ | text <;>
    simp [ocrTrace, List.count_cons]

/-- C5 witness: on the all-success behaviour the trace does terminate the
worker. -/
theorem C5_witness :
    OcrEvent.terminated ∈ ocrTrace engOk ∧
      (ocrTrace engOk).count .workerCreated ≤ 1 :=
  ⟨(C5_theorem engOk).2.2.mpr ⟨rfl, rfl, rfl⟩, (C5_theorem engOk).1⟩

/-! ## Claim C6 -/

/-- C6 counterexample: on the native-photo path a file-read failure or an
image-decode failure fires no registered callback, so `resetScanState`
never runs: the in-progress flag stays set and the pipeline is stuck
outside Idle. -/
theorem C6_counterexample :
    (nativeRun initState true true false engOk).isScanning = true ∧
    (nativeRun initState true true false engOk).resets = 0 ∧
    (nativeRun initState true false true engOk).isScanning = true ∧
    (nativeRun initState true false true engOk).resets = 0 := by decide

/-- C6 (amended): the live path resets exactly once on every outcome
(capture exception, engine failure or success) and re-enables capture; the
native path resets exactly once provided the file read and the image
decode succeed (OCR failures included, as `processImageData` traps its own
errors); the ready status returns via a timer with a fixed 3000 ms delay
whenever no new scan is in flight. -/
theorem C6_theorem :
    (∀ (s : AppState) (cw ch : ℚ) (capOk : Bool) (eng : EngineBehavior),
      s.isScanning = false → s.hasStream = true →
        (liveRun s cw ch capOk eng).isScanning = false ∧
        (liveRun s cw ch capOk eng).scanBtnDisabled = false ∧
        (liveRun s cw ch capOk eng).resets = s.resets + 1 ∧
        (liveRun s cw ch capOk eng).activeRuns = s.activeRuns) ∧
    (∀ (s : AppState) (eng : EngineBehavior),
        (nativeRun s true true true eng).isScanning = false ∧
        (nativeRun s true true true eng).scanBtnDisabled = false ∧
        (nativeRun s true true true eng).resets = s.resets + 1 ∧
        (nativeRun s true true true eng).activeRuns = s.activeRuns) ∧
    resetDelayMs = 3000 ∧
    (∀ s : AppState, s.isScanning = false →
      (statusTimerFire s).status = "Ready for next scan") := by
  refine ⟨?_, ?_, rfl, ?_⟩
  · intro s cw ch capOk eng h1 h2
    cases capOk <;>
      simp [liveRun, h1, h2, liveStartBody, procImage, resetScanState]
  · intro s eng
    simp [nativeRun, nativeStartBody, procImage, resetScanState]
  · intro s h
    simp [statusTimerFire, h]

/-- C6 witness: a live run whose recognition throws still resets and
re-enables capture. -/
theorem C6_witness :
    (liveRun initState 1920 1080 true engRecThrows).isScanning = false ∧
      (liveRun initState 1920 1080 true engRecThrows).resets = 1 :=
  ⟨(C6_theorem.1 initState 1920 1080 true engRecThrows rfl rfl).1,
   (C6_theorem.1 initState 1920 1080 true engRecThrows rfl rfl).2.2.1⟩

/-! ## Claim C7 -/

/-- C7 counterexample: with a source frame of zero pixel dimensions the
computed region of interest has zero width and height, yet the pipeline
does not abort: it proceeds to invoke OCR (the live path has no dimension
check at all, and no EmptyRegion failure exists in the code). -/
theorem C7_counterexample :
    (liveRoi 0 0).w = 0 ∧ (liveRoi 0 0).h = 0 ∧
    (liveRun initState 0 0 true engOk).ocrInvocations = 1 ∧
    (liveRun initState 0 0 true engOk).lastRoi = some (liveRoi 0 0) := by
  refine ⟨?_, ?_, rfl, rfl⟩
  · show cropWidth 0 = 0
    simp [cropWidth]
  · show cropHeight 0 = 0
    simp [cropHeight]

/-- C7 (amended): the live path validates nothing about the computed
region: for every source dimension pair, including non-positive ones, a
guard-passing capture with a non-throwing canvas section records the
computed region and invokes OCR exactly once. -/
theorem C7_theorem :
    ∀ (s : AppState) (cw ch : ℚ) (eng : EngineBehavior),
      s.isScanning = false → s.hasStream = true →
        (liveRun s cw ch true eng).ocrInvocations = s.ocrInvocations + 1 ∧
        (liveRun s cw ch true eng).lastRoi = some (liveRoi cw ch) := by
  intro s cw ch eng h1 h2
  constructor <;>
    simp [liveRun, h1, h2, liveStartBody, procImage, resetScanState]

/-- C7 witness: the not-yet-ready frame (0 by 0) still reaches OCR. -/
theorem C7_witness :
    (liveRun initState 0 0 true engOk).ocrInvocations = 1 ∧
      (liveRun initState 0 0 true engOk).lastRoi = some (liveRoi 0 0) :=
  ⟨(C7_theorem initState 0 0 engOk rfl rfl).1,
   (C7_theorem initState 0 0 engOk rfl rfl).2⟩

/-! ## Claim C8 -/

/-- C8: for every valid source frame in live mode the region of interest
has width 0.8 times the source width, height 0.3 times the source height,
is centered with equal margins, and lies entirely within the source
bounds. -/
theorem C8_theorem :
    ∀ cw ch : ℚ, 0 < cw → 0 < ch → RoiSpec cw ch := by
  intro cw ch hcw hch
  simp only [RoiSpec, cropWidth, cropHeight, roiStartX, roiStartY]
  refine ⟨by ring, by ring, trivial, trivial, by ring, by ring,
    by linarith, by linarith, by linarith, by linarith⟩

/-- C8 witness: the ideal 1920 by 1080 camera frame. -/
theorem C8_witness :
    0 < (1920 : ℚ) ∧ 0 < (1080 : ℚ) ∧ RoiSpec 1920 1080 :=
  ⟨by norm_num, by norm_num, C8_theorem 1920 1080 (by norm_num) (by norm_num)⟩

/-! ## Claim C9 -/

/-- C9: the OCR worker is configured with exactly the
alphanumeric-with-brackets whitelist (digits, space, uppercase A-Z,
brackets, hyphen) and page-segmentation mode 6, and on every run that
recognises, the configuration event precedes the recognition event. -/
theorem C9_theorem :
    tessWhitelist = claimCharset ∧
    tessPsm = "6".toList ∧
    ∀ eng : EngineBehavior, OcrEvent.recognized ∈ ocrTrace eng →
      ∃ pre post,
        ocrTrace eng = pre ++ OcrEvent.paramsSet tessWhitelist tessPsm :: post ∧
        OcrEvent.recognized ∈ post := by
  refine ⟨by decide, by decide, ?_⟩
  intro eng h
  obtain ⟨cr, sp, rec⟩ := eng
  cases cr with
  | false => simp [ocrTrace] at h
  | true =>
    cases sp with
    | false => simp [ocrTrace] at h
    | true =>
      rcases rec with _ | text
      · simp [ocrTrace] at h
      · exact ⟨[.workerCreated],
          [.recognized, .terminated, .rendered (renderResult text),
           .statusComplete], by simp [ocrTrace], by simp⟩

/-- C9 witness: the all-success run recognises, with the parameters set
beforehand. -/
theorem C9_witness :
    OcrEvent.recognized ∈ ocrTrace engOk ∧
      ∃ pre post,
        ocrTrace engOk = pre ++ OcrEvent.paramsSet tessWhitelist tessPsm :: post ∧
        OcrEvent.recognized ∈ post :=
  ⟨by decide, C9_theorem.2.2 engOk (by decide)⟩

/-! ## Claim C10 -/

/-- C10: bonus-group classification depends only on both brackets being
present somewhere in the line, in any order and with any content, and it
takes priority over the number-run test. -/
theorem C10_theorem :
    ∀ line : List Char, '[' ∈ line → ']' ∈ line →
      lineDraws line = [starTag ++ trimJS line] := by
  intro line h1 h2
  simp [lineDraws, h1, h2]

/-- C10 witness: a line whose closing bracket precedes its opening bracket
and which the number-run regex would also match is still tagged
bonus-group. -/
theorem C10_witness :
    regexMatches ("] 12 34 56 78 90 [".toList) = true ∧
      lineDraws ("] 12 34 56 78 90 [".toList)
        = [starTag ++ trimJS ("] 12 34 56 78 90 [".toList)] :=
  ⟨by decide, C10_theorem ("] 12 34 56 78 90 [".toList) (by decide) (by decide)⟩

end LottoScanner
